import Mathlib

/-!
Shallow embedding of the Job Stream & Status Synchronization subsystem of the
local-app desktop console (TypeScript sources under src/).

Embedded source units:
- src/src/lib/tauri/events.ts : stream event taxonomy, toUint8Array, decodeUtf8,
  chunksToString.
- src/src/hooks/use-job-stream.ts : useJobStream (chunk-buffer monitor) and
  useJobStreamText (streaming-text monitor) event handlers, reset, the
  subscribe/unsubscribe race guard, and isActiveJob with ACTIVE_STATUSES.
- src/src/routes/jobs/jobId route component : which callbacks the job detail
  page wires into the monitor (onComplete performs a cache invalidation, no
  onError is supplied).

Modeling conventions:
- JavaScript strings that arise from decoding are modeled as the sequence of
  Unicode code points they contain (List Nat).
- Byte arrays (Uint8Array, Rust Vec of u8 delivered as number arrays) are
  modeled as List Nat; the Uint8Array constructor truncates modulo 256.
- The WHATWG TextDecoder for utf-8 in non-fatal mode is modeled as its
  specified byte-level state machine (code point accumulator, bytes needed,
  bytes seen, lower and upper boundaries), emitting U+FFFD for malformed
  input. The same machine models both one-shot decodes (decode without the
  stream flag: run then flush) and streaming decodes (decode with the stream
  flag: run, keep the state).
- React state updates inside one event callback are modeled as a pure state
  transition function on a session record; callback invocations are counted
  by an instrumented variant of the same transition.
-/

namespace JobStreamSpec

/-- Model of toUint8Array from events.ts: the Uint8Array constructor coerces
each entry of the number array modulo 256. -/
def toUint8Array (data : List Nat) : List Nat :=
  data.map (fun b => b % 256)

/-- State of the WHATWG utf-8 decoder between bytes: the partially assembled
code point, how many continuation bytes are still needed, how many have been
seen, and the admissible range for the next continuation byte. -/
structure Utf8State where
  codePoint : Nat
  bytesNeeded : Nat
  bytesSeen : Nat
  lower : Nat
  upper : Nat
deriving DecidableEq, Repr

/-- Initial (clean) decoder state. -/
def Utf8State.start : Utf8State :=
  { codePoint := 0, bytesNeeded := 0, bytesSeen := 0, lower := 0x80, upper := 0xBF }

/-- Unicode replacement character U+FFFD, emitted for malformed input. -/
def replacementCp : Nat := 0xFFFD

/-- One byte processed from the clean state (bytes needed = 0): ASCII is
emitted directly, lead bytes C2..DF / E0..EF / F0..F4 arm the multi-byte
accumulator with the boundaries of the WHATWG algorithm, anything else is
malformed and replaced. -/
def utf8Lead (b : Nat) : List Nat × Utf8State :=
  if b ≤ 0x7F then
    ([b], Utf8State.start)
  else if 0xC2 ≤ b ∧ b ≤ 0xDF then
    ([], { codePoint := b % 32, bytesNeeded := 1, bytesSeen := 0,
           lower := 0x80, upper := 0xBF })
  else if 0xE0 ≤ b ∧ b ≤ 0xEF then
    ([], { codePoint := b % 16, bytesNeeded := 2, bytesSeen := 0,
           lower := if b = 0xE0 then 0xA0 else 0x80,
           upper := if b = 0xED then 0x9F else 0xBF })
  else if 0xF0 ≤ b ∧ b ≤ 0xF4 then
    ([], { codePoint := b % 8, bytesNeeded := 3, bytesSeen := 0,
           lower := if b = 0xF0 then 0x90 else 0x80,
           upper := if b = 0xF4 then 0x8F else 0xBF })
  else
    ([replacementCp], Utf8State.start)

/-- One byte processed in an arbitrary decoder state. A continuation byte
outside the admissible range emits a replacement and reprocesses the byte
from the clean state (the prepend-to-stream step of the WHATWG algorithm). -/
def utf8Step (st : Utf8State) (b : Nat) : List Nat × Utf8State :=
  if st.bytesNeeded = 0 then
    utf8Lead b
  else if b < st.lower ∨ st.upper < b then
    (replacementCp :: (utf8Lead b).1, (utf8Lead b).2)
  else
    let cp := st.codePoint * 64 + b % 64
    if st.bytesSeen + 1 = st.bytesNeeded then
      ([cp], Utf8State.start)
    else
      ([], { codePoint := cp, bytesNeeded := st.bytesNeeded,
             bytesSeen := st.bytesSeen + 1, lower := 0x80, upper := 0xBF })

/-- Run the decoder over a byte list, returning the emitted code points and
the final decoder state. -/
def utf8Run : Utf8State → List Nat → List Nat × Utf8State
  | st, [] => ([], st)
  | st, b :: bs =>
    ((utf8Step st b).1 ++ (utf8Run (utf8Step st b).2 bs).1,
     (utf8Run (utf8Step st b).2 bs).2)

/-- End-of-stream flush: a dangling incomplete sequence becomes one
replacement character. -/
def utf8Flush (st : Utf8State) : List Nat :=
  if st.bytesNeeded = 0 then [] else [replacementCp]

/-- Model of decodeUtf8 from events.ts: a fresh TextDecoder decoding the whole
byte array in one non-streaming call (run from the clean state, then flush). -/
def decodeUtf8 (data : List Nat) : List Nat :=
  (utf8Run Utf8State.start (toUint8Array data)).1 ++
    utf8Flush (utf8Run Utf8State.start (toUint8Array data)).2

/-- Model of chunksToString from events.ts: each chunk is decoded by a
non-streaming decode call (which flushes and resets the decoder), and the
results are joined. Chunks are already Uint8Array values, so entries are
below 256 and the map through decodeUtf8 adds no further truncation. -/
def chunksToString (chunks : List (List Nat)) : List Nat :=
  (chunks.map decodeUtf8).flatten

/-- Unicode scalar values: code points outside the surrogate range and below
0x110000. These are exactly the code points utf-8 can encode. -/
def ScalarValue (n : Nat) : Prop :=
  n < 0xD800 ∨ (0xE000 ≤ n ∧ n < 0x110000)

instance (n : Nat) : Decidable (ScalarValue n) := by
  unfold ScalarValue; infer_instance

/-- Standard utf-8 encoding of one code point (1 to 4 bytes). -/
def utf8EncodeCp (n : Nat) : List Nat :=
  if n ≤ 0x7F then
    [n]
  else if n ≤ 0x7FF then
    [0xC0 + n / 64, 0x80 + n % 64]
  else if n ≤ 0xFFFF then
    [0xE0 + n / 4096, 0x80 + (n / 64) % 64, 0x80 + n % 64]
  else
    [0xF0 + n / 262144, 0x80 + (n / 4096) % 64, 0x80 + (n / 64) % 64,
     0x80 + n % 64]

/-- Standard utf-8 encoding of a code point sequence. -/
def utf8Encode (cps : List Nat) : List Nat :=
  (cps.map utf8EncodeCp).flatten

/-- Stream event taxonomy from events.ts: Data carries a byte array, End marks
normal closure, FinalCollected carries the terminal structured payload, Error
carries a backend-reported message. -/
inductive StreamEvent where
  | Data (data : List Nat)
  | End
  | FinalCollected (status : String) (pr_number : Option Nat) (pr_url : Option String)
  | Error (message : String)
deriving DecidableEq, Repr

/-- Lifecycle status of a stream session, from use-job-stream.ts. -/
inductive StreamStatus where
  | idle
  | connecting
  | streaming
  | completed
  | error
deriving DecidableEq, Repr

/-- Final result payload from a completed workflow, from use-job-stream.ts. -/
structure WorkflowResult where
  status : String
  pr_number : Option Nat
  pr_url : Option String
deriving DecidableEq, Repr

/-- Default chunk-buffer bound from use-job-stream.ts. -/
def DEFAULT_MAX_CHUNKS : Nat := 1000

/-- Session state of the useJobStream hook: the four React state cells
(chunks, status, error, result). The error cell holds the message of the
stored Error object, or none. -/
structure JobStreamState where
  chunks : List (List Nat)
  status : StreamStatus
  error : Option String
  result : Option WorkflowResult
deriving DecidableEq, Repr

/-- Initial useJobStream session state (useState initializers). -/
def JobStreamState.initial : JobStreamState :=
  { chunks := [], status := .idle, error := none, result := none }

/-- Session state right after the subscription effect starts: status is set
to connecting and the data cells are cleared. -/
def JobStreamState.opened : JobStreamState :=
  { chunks := [], status := .connecting, error := none, result := none }

/-- Model of the JavaScript call arr.slice(-m) for a natural m. For positive
m this keeps the last min(m, length) elements; for m = 0 the argument is -0,
which JavaScript treats as start index 0, so the whole array is kept. -/
def sliceFromEnd (m : Nat) (l : List (List Nat)) : List (List Nat) :=
  if m = 0 then l else l.drop (l.length - m)

/-- Event handler of useJobStream: Data appends the coerced byte array and
trims with slice(-maxChunks) while setting status streaming; FinalCollected
stores the result and completes; End completes; Error stores the message and
moves to error. The next status never depends on the current one. -/
def handleEvent (maxChunks : Nat) (s : JobStreamState) (e : StreamEvent) :
    JobStreamState :=
  match e with
  | .Data d =>
    { s with status := .streaming,
             chunks := sliceFromEnd maxChunks (s.chunks ++ [toUint8Array d]) }
  | .FinalCollected st pn pu =>
    { s with result := some { status := st, pr_number := pn, pr_url := pu },
             status := .completed }
  | .End => { s with status := .completed }
  | .Error msg => { s with error := some msg, status := .error }

/-- Model of the reset callback of useJobStream: all four state cells are set
back to their initial values. -/
def reset (_s : JobStreamState) : JobStreamState :=
  JobStreamState.initial

/-- Decoded text exposed by useJobStream: chunksToString over the chunk
buffer. -/
def streamText (s : JobStreamState) : List Nat :=
  chunksToString s.chunks

/-- Session state of the useJobStreamText hook: the text cell plus the
persistent streaming TextDecoder state held in the effect closure. -/
structure JobStreamTextState where
  text : List Nat
  status : StreamStatus
  error : Option String
  result : Option WorkflowResult
  streamDecoder : Utf8State
deriving DecidableEq, Repr

/-- Text session state right after the subscription effect starts. -/
def JobStreamTextState.opened : JobStreamTextState :=
  { text := [], status := .connecting, error := none, result := none,
    streamDecoder := Utf8State.start }

/-- Instrumented event handler of useJobStreamText. Besides the next session
state it returns how many times the onComplete and onError callbacks are
invoked while handling the event: onComplete fires once on FinalCollected,
onError fires once on Error, and no callback fires on Data or End. Data
decodes with the persistent decoder in streaming mode; End flushes the
decoder with a final non-streaming decode of an empty array. -/
def handleTextEventCounted (s : JobStreamTextState) (e : StreamEvent) :
    JobStreamTextState × Nat × Nat :=
  match e with
  | .Data d =>
    ({ s with status := .streaming,
              text := s.text ++ (utf8Run s.streamDecoder (toUint8Array d)).1,
              streamDecoder := (utf8Run s.streamDecoder (toUint8Array d)).2 },
     0, 0)
  | .FinalCollected st pn pu =>
    ({ s with result := some { status := st, pr_number := pn, pr_url := pu },
              status := .completed },
     1, 0)
  | .End =>
    ({ s with text := s.text ++ utf8Flush s.streamDecoder,
              streamDecoder := Utf8State.start,
              status := .completed },
     0, 0)
  | .Error msg =>
    ({ s with error := some msg, status := .error }, 0, 1)

/-- Event handler of useJobStreamText (state part only). -/
def handleTextEvent (s : JobStreamTextState) (e : StreamEvent) :
    JobStreamTextState :=
  (handleTextEventCounted s e).1

/-- Forced out-of-band status refreshes triggered by one stream event on the
job detail page. The page wires onComplete to a cache invalidation of the
persisted job record (one forced refresh per call) and supplies no onError,
so refreshes equal the onComplete invocation count. -/
def jobDetailForcedRefreshes (s : JobStreamTextState) (e : StreamEvent) : Nat :=
  (handleTextEventCounted s e).2.1

/-- Job statuses classified as active by use-job-stream.ts. -/
def ACTIVE_STATUSES : List String :=
  ["Pending", "PreparingWorkspace", "FetchingIssue", "RunningAgent",
   "CreatingPR"]

/-- The ten enumerated persisted job statuses (the AgentJobStatus union from
types/models.ts). -/
def JOB_STATUSES : List String :=
  ["Pending", "PreparingWorkspace", "FetchingIssue", "RunningAgent",
   "CreatingPR", "PrCreated", "Merged", "Completed", "Failed", "Cancelled"]

/-- Model of isActiveJob: membership test of the status string in
ACTIVE_STATUSES. At runtime the argument can be any string. -/
def isActiveJob (status : String) : Bool :=
  ACTIVE_STATUSES.contains status

/-- Actions of the subscribe/teardown race in the subscription effect: the
listen promise resolving (delivering the unlisten function), and the effect
cleanup running (teardown of the owning component). -/
inductive SubAction where
  | resolve
  | cleanup
deriving DecidableEq, Repr

/-- State of the subscription race: the mounted guard flag, whether the
unlisten handle has been stored, and whether a backend subscription is
currently live. -/
structure SubState where
  mounted : Bool
  stored : Bool
  live : Bool
deriving DecidableEq, Repr

/-- Initial race state: effect body ran, promise pending, nothing live. -/
def SubState.initial : SubState :=
  { mounted := true, stored := false, live := false }

/-- One step of the race. Resolution creates the subscription; the handler
then checks the mounted guard: if the component is already torn down the
just-delivered unlisten function is called at once (the subscription never
stays live past this step), otherwise the handle is stored. Cleanup clears
the mounted flag and calls the stored unlisten handle if there is one. -/
def subStep (s : SubState) (a : SubAction) : SubState :=
  match a with
  | .resolve =>
    if s.mounted then { s with live := true, stored := true }
    else { s with live := false }
  | .cleanup =>
    { mounted := false, stored := s.stored,
      live := if s.stored then false else s.live }

/-- Run a sequence of race actions from a state. -/
def subRun (s : SubState) (l : List SubAction) : SubState :=
  l.foldl subStep s

/-- Combined monitor state for frame reasoning about reset: the session cells
plus whether the underlying event subscription is live. The reset callback
touches only the session cells. -/
structure MonitorState where
  session : JobStreamState
  subscriptionLive : Bool
deriving DecidableEq, Repr

/-- Reset on the combined state: resets the session, leaves the subscription
untouched (reset does not call unlisten). -/
def resetMonitor (s : MonitorState) : MonitorState :=
  { session := reset s.session, subscriptionLive := s.subscriptionLive }

/-- Event delivery on the combined state: events reach the handler only while
the subscription is live. -/
def deliver (maxChunks : Nat) (s : MonitorState) (e : StreamEvent) :
    MonitorState :=
  if s.subscriptionLive then
    { s with session := handleEvent maxChunks s.session e }
  else s

/-- Chunk buffer contents after a sequence of Data events is delivered to a
fresh useJobStream session with the given chunk limit. -/
def chunksAfterData (maxChunks : Nat) (ds : List (List Nat)) : List (List Nat) :=
  (ds.foldl (fun s d => handleEvent maxChunks s (.Data d))
    JobStreamState.opened).chunks

/-- The last min(length, m) elements of a list, in original order. -/
def lastChunks (m : Nat) (l : List (List Nat)) : List (List Nat) :=
  l.drop (l.length - m)

/-- Lifecycle status dictated by each event in the useJobStream handler,
independent of the current status. -/
def eventStatusTarget : StreamEvent → StreamStatus
  | .Data _ => .streaming
  | .End => .completed
  | .FinalCollected _ _ _ => .completed
  | .Error _ => .error

/-- Text exposed by the useJobStreamText monitor after two Data chunks are
delivered to a fresh session. -/
def textAfterTwoChunks (b1 b2 : List Nat) : List Nat :=
  (handleTextEvent (handleTextEvent JobStreamTextState.opened (.Data b1))
    (.Data b2)).text

/-! Helper lemmas about the utf-8 decoder machine. -/

theorem utf8Step_start (b : Nat) : utf8Step Utf8State.start b = utf8Lead b := by
  simp [utf8Step, Utf8State.start]

theorem utf8Run_nil (st : Utf8State) : utf8Run st [] = ([], st) := rfl

theorem utf8Run_cons_pair (st : Utf8State) (b : Nat) (bs out : List Nat)
    (st2 : Utf8State) (h : utf8Step st b = (out, st2)) :
    utf8Run st (b :: bs) =
      (out ++ (utf8Run st2 bs).1, (utf8Run st2 bs).2) := by
  simp [utf8Run, h]

theorem utf8Run_append (a b : List Nat) : ∀ st : Utf8State,
    utf8Run st (a ++ b) =
      ((utf8Run st a).1 ++ (utf8Run (utf8Run st a).2 b).1,
       (utf8Run (utf8Run st a).2 b).2) := by
  induction a with
  | nil => intro st; simp [utf8Run]
  | cons x xs ih => intro st; simp [utf8Run, ih, List.append_assoc]

theorem utf8Lead_ascii (b : Nat) (h : b ≤ 0x7F) :
    utf8Lead b = ([b], Utf8State.start) := by
  simp [utf8Lead, h]

theorem utf8Lead_two (b : Nat) (h : 0xC2 ≤ b ∧ b ≤ 0xDF) :
    utf8Lead b = ([], { codePoint := b % 32, bytesNeeded := 1, bytesSeen := 0,
                        lower := 0x80, upper := 0xBF }) := by
  unfold utf8Lead
  rw [if_neg (by omega), if_pos h]

theorem utf8Lead_three (b : Nat) (h : 0xE0 ≤ b ∧ b ≤ 0xEF) :
    utf8Lead b = ([], { codePoint := b % 16, bytesNeeded := 2, bytesSeen := 0,
                        lower := if b = 0xE0 then 0xA0 else 0x80,
                        upper := if b = 0xED then 0x9F else 0xBF }) := by
  unfold utf8Lead
  rw [if_neg (by omega), if_neg (by omega), if_pos h]

theorem utf8Lead_four (b : Nat) (h : 0xF0 ≤ b ∧ b ≤ 0xF4) :
    utf8Lead b = ([], { codePoint := b % 8, bytesNeeded := 3, bytesSeen := 0,
                        lower := if b = 0xF0 then 0x90 else 0x80,
                        upper := if b = 0xF4 then 0x8F else 0xBF }) := by
  unfold utf8Lead
  rw [if_neg (by omega), if_neg (by omega), if_neg (by omega), if_pos h]

theorem utf8Step_cont_last (st : Utf8State) (b : Nat)
    (h0 : st.bytesNeeded ≠ 0) (hl : st.lower ≤ b) (hu : b ≤ st.upper)
    (hlast : st.bytesSeen + 1 = st.bytesNeeded) :
    utf8Step st b = ([st.codePoint * 64 + b % 64], Utf8State.start) := by
  unfold utf8Step
  rw [if_neg h0, if_neg (by omega), if_pos hlast]

theorem utf8Step_cont_more (st : Utf8State) (b : Nat)
    (h0 : st.bytesNeeded ≠ 0) (hl : st.lower ≤ b) (hu : b ≤ st.upper)
    (hmore : st.bytesSeen + 1 ≠ st.bytesNeeded) :
    utf8Step st b = ([], { codePoint := st.codePoint * 64 + b % 64,
                           bytesNeeded := st.bytesNeeded,
                           bytesSeen := st.bytesSeen + 1,
                           lower := 0x80, upper := 0xBF }) := by
  unfold utf8Step
  rw [if_neg h0, if_neg (by omega), if_neg hmore]

theorem utf8Run_encodeCp (n : Nat) (hn : ScalarValue n) :
    utf8Run Utf8State.start (utf8EncodeCp n) = ([n], Utf8State.start) := by
  unfold ScalarValue at hn
  by_cases h1 : n ≤ 0x7F
  · rw [utf8EncodeCp, if_pos h1]
    have e1 : utf8Step Utf8State.start n = ([n], Utf8State.start) := by
      rw [utf8Step_start, utf8Lead_ascii n h1]
    rw [utf8Run_cons_pair _ _ _ _ _ e1, utf8Run_nil]
    simp
  · by_cases h2 : n ≤ 0x7FF
    · rw [utf8EncodeCp, if_neg h1, if_pos h2]
      have e1 : utf8Step Utf8State.start (0xC0 + n / 64) =
          ([], { codePoint := (0xC0 + n / 64) % 32, bytesNeeded := 1,
                 bytesSeen := 0, lower := 0x80, upper := 0xBF }) := by
        rw [utf8Step_start, utf8Lead_two _ (by omega)]
      have e2 : utf8Step { codePoint := (0xC0 + n / 64) % 32, bytesNeeded := 1,
                           bytesSeen := 0, lower := 0x80, upper := 0xBF }
            (0x80 + n % 64) =
          ([(0xC0 + n / 64) % 32 * 64 + (0x80 + n % 64) % 64],
           Utf8State.start) := by
        apply utf8Step_cont_last
        · show (1 : Nat) ≠ 0; omega
        · show (0x80 : Nat) ≤ 0x80 + n % 64; omega
        · show 0x80 + n % 64 ≤ 0xBF; omega
        · show 0 + 1 = 1; rfl
      rw [utf8Run_cons_pair _ _ _ _ _ e1, utf8Run_cons_pair _ _ _ _ _ e2,
          utf8Run_nil]
      simp
      omega
    · by_cases h3 : n ≤ 0xFFFF
      · rw [utf8EncodeCp, if_neg h1, if_neg h2, if_pos h3]
        have e1 : utf8Step Utf8State.start (0xE0 + n / 4096) =
            ([], { codePoint := (0xE0 + n / 4096) % 16, bytesNeeded := 2,
                   bytesSeen := 0,
                   lower := if 0xE0 + n / 4096 = 0xE0 then 0xA0 else 0x80,
                   upper := if 0xE0 + n / 4096 = 0xED then 0x9F else 0xBF }) := by
          rw [utf8Step_start, utf8Lead_three _ (by omega)]
        have hlow : (if 0xE0 + n / 4096 = 0xE0 then (0xA0 : Nat) else 0x80) ≤
            0x80 + n / 64 % 64 := by
          split <;> omega
        have hup : 0x80 + n / 64 % 64 ≤
            (if 0xE0 + n / 4096 = 0xED then (0x9F : Nat) else 0xBF) := by
          split <;> omega
        have e2 : utf8Step
              { codePoint := (0xE0 + n / 4096) % 16, bytesNeeded := 2,
                bytesSeen := 0,
                lower := if 0xE0 + n / 4096 = 0xE0 then 0xA0 else 0x80,
                upper := if 0xE0 + n / 4096 = 0xED then 0x9F else 0xBF }
              (0x80 + n / 64 % 64) =
            ([], { codePoint :=
                     (0xE0 + n / 4096) % 16 * 64 + (0x80 + n / 64 % 64) % 64,
                   bytesNeeded := 2, bytesSeen := 1,
                   lower := 0x80, upper := 0xBF }) := by
          apply utf8Step_cont_more
          · show (2 : Nat) ≠ 0; omega
          · exact hlow
          · exact hup
          · show 0 + 1 ≠ 2; omega
        have e3 : utf8Step
              { codePoint :=
                  (0xE0 + n / 4096) % 16 * 64 + (0x80 + n / 64 % 64) % 64,
                bytesNeeded := 2, bytesSeen := 1,
                lower := 0x80, upper := 0xBF }
              (0x80 + n % 64) =
            ([((0xE0 + n / 4096) % 16 * 64 + (0x80 + n / 64 % 64) % 64) * 64 +
                (0x80 + n % 64) % 64],
             Utf8State.start) := by
          apply utf8Step_cont_last
          · show (2 : Nat) ≠ 0; omega
          · show (0x80 : Nat) ≤ 0x80 + n % 64; omega
          · show 0x80 + n % 64 ≤ 0xBF; omega
          · show 1 + 1 = 2; rfl
        rw [utf8Run_cons_pair _ _ _ _ _ e1, utf8Run_cons_pair _ _ _ _ _ e2,
            utf8Run_cons_pair _ _ _ _ _ e3, utf8Run_nil]
        simp
        omega
      · rw [utf8EncodeCp, if_neg h1, if_neg h2, if_neg h3]
        have e1 : utf8Step Utf8State.start (0xF0 + n / 262144) =
            ([], { codePoint := (0xF0 + n / 262144) % 8, bytesNeeded := 3,
                   bytesSeen := 0,
                   lower := if 0xF0 + n / 262144 = 0xF0 then 0x90 else 0x80,
                   upper := if 0xF0 + n / 262144 = 0xF4 then 0x8F else 0xBF }) := by
          rw [utf8Step_start, utf8Lead_four _ (by omega)]
        have hlow : (if 0xF0 + n / 262144 = 0xF0 then (0x90 : Nat) else 0x80) ≤
            0x80 + n / 4096 % 64 := by
          split <;> omega
        have hup : 0x80 + n / 4096 % 64 ≤
            (if 0xF0 + n / 262144 = 0xF4 then (0x8F : Nat) else 0xBF) := by
          split <;> omega
        have e2 : utf8Step
              { codePoint := (0xF0 + n / 262144) % 8, bytesNeeded := 3,
                bytesSeen := 0,
                lower := if 0xF0 + n / 262144 = 0xF0 then 0x90 else 0x80,
                upper := if 0xF0 + n / 262144 = 0xF4 then 0x8F else 0xBF }
              (0x80 + n / 4096 % 64) =
            ([], { codePoint :=
                     (0xF0 + n / 262144) % 8 * 64 + (0x80 + n / 4096 % 64) % 64,
                   bytesNeeded := 3, bytesSeen := 1,
                   lower := 0x80, upper := 0xBF }) := by
          apply utf8Step_cont_more
          · show (3 : Nat) ≠ 0; omega
          · exact hlow
          · exact hup
          · show 0 + 1 ≠ 3; omega
        have e3 : utf8Step
              { codePoint :=
                  (0xF0 + n / 262144) % 8 * 64 + (0x80 + n / 4096 % 64) % 64,
                bytesNeeded := 3, bytesSeen := 1,
                lower := 0x80, upper := 0xBF }
              (0x80 + n / 64 % 64) =
            ([], { codePoint :=
                     ((0xF0 + n / 262144) % 8 * 64 + (0x80 + n / 4096 % 64) % 64) *
                       64 + (0x80 + n / 64 % 64) % 64,
                   bytesNeeded := 3, bytesSeen := 2,
                   lower := 0x80, upper := 0xBF }) := by
          apply utf8Step_cont_more
          · show (3 : Nat) ≠ 0; omega
          · show (0x80 : Nat) ≤ 0x80 + n / 64 % 64; omega
          · show 0x80 + n / 64 % 64 ≤ 0xBF; omega
          · show 1 + 1 ≠ 3; omega
        have e4 : utf8Step
              { codePoint :=
                  ((0xF0 + n / 262144) % 8 * 64 + (0x80 + n / 4096 % 64) % 64) *
                    64 + (0x80 + n / 64 % 64) % 64,
                bytesNeeded := 3, bytesSeen := 2,
                lower := 0x80, upper := 0xBF }
              (0x80 + n % 64) =
            ([(((0xF0 + n / 262144) % 8 * 64 + (0x80 + n / 4096 % 64) % 64) *
                 64 + (0x80 + n / 64 % 64) % 64) * 64 + (0x80 + n % 64) % 64],
             Utf8State.start) := by
          apply utf8Step_cont_last
          · show (3 : Nat) ≠ 0; omega
          · show (0x80 : Nat) ≤ 0x80 + n % 64; omega
          · show 0x80 + n % 64 ≤ 0xBF; omega
          · show 2 + 1 = 3; rfl
        rw [utf8Run_cons_pair _ _ _ _ _ e1, utf8Run_cons_pair _ _ _ _ _ e2,
            utf8Run_cons_pair _ _ _ _ _ e3, utf8Run_cons_pair _ _ _ _ _ e4,
            utf8Run_nil]
        simp
        omega

theorem utf8Run_encode (cps : List Nat) (h : ∀ n ∈ cps, ScalarValue n) :
    utf8Run Utf8State.start (utf8Encode cps) = (cps, Utf8State.start) := by
  induction cps with
  | nil => simp [utf8Encode, utf8Run]
  | cons c cs ih =>
    have hc : ScalarValue c := h c (by simp)
    have hcs : ∀ n ∈ cs, ScalarValue n := fun n hn => h n (by simp [hn])
    have henc : utf8Encode (c :: cs) = utf8EncodeCp c ++ utf8Encode cs := by
      simp [utf8Encode]
    rw [henc, utf8Run_append, utf8Run_encodeCp c hc, ih hcs]
    simp

theorem utf8EncodeCp_lt (n : Nat) (hn : ScalarValue n) :
    ∀ b ∈ utf8EncodeCp n, b < 256 := by
  unfold ScalarValue at hn
  intro b hb
  unfold utf8EncodeCp at hb
  split at hb
  · simp at hb; omega
  · split at hb
    · simp at hb; rcases hb with hb | hb <;> omega
    · split at hb
      · simp at hb; rcases hb with hb | hb | hb <;> omega
      · simp at hb; rcases hb with hb | hb | hb | hb <;> omega

theorem utf8Encode_lt (cps : List Nat) (h : ∀ n ∈ cps, ScalarValue n) :
    ∀ b ∈ utf8Encode cps, b < 256 := by
  intro b hb
  unfold utf8Encode at hb
  simp only [List.mem_flatten, List.mem_map] at hb
  obtain ⟨l, ⟨n, hn, rfl⟩, hbl⟩ := hb
  exact utf8EncodeCp_lt n (h n hn) b hbl

theorem toUint8Array_eq_self (bs : List Nat) (h : ∀ b ∈ bs, b < 256) :
    toUint8Array bs = bs := by
  unfold toUint8Array
  induction bs with
  | nil => rfl
  | cons x xs ih =>
    have hx : x % 256 = x := Nat.mod_eq_of_lt (h x (by simp))
    simp only [List.map_cons, hx]
    rw [ih (fun b hb => h b (by simp [hb]))]

/-! Helper lemmas about the bounded chunk buffer. -/

theorem sliceFromEnd_pos (m : Nat) (hm : 1 ≤ m) (l : List (List Nat)) :
    sliceFromEnd m l = l.drop (l.length - m) := by
  rw [sliceFromEnd, if_neg (by omega)]

theorem lastChunks_append_one (m : Nat) (hm : 1 ≤ m) (p : List (List Nat))
    (d : List Nat) :
    lastChunks m (lastChunks m p ++ [d]) = lastChunks m (p ++ [d]) := by
  unfold lastChunks
  rw [List.length_append, List.length_drop, List.drop_append_eq_append_drop,
      List.drop_append_eq_append_drop, List.drop_drop, List.length_drop]
  congr 1
  · congr 1
    simp only [List.length_singleton, List.length_append]
    omega
  · congr 1
    simp only [List.length_singleton, List.length_append, List.length_drop]
    omega

theorem chunksFold_data (m : Nat) (hm : 1 ≤ m) :
    ∀ (ds : List (List Nat)) (p : List (List Nat)) (s : JobStreamState),
      s.chunks = lastChunks m p →
      ((ds.foldl (fun s d => handleEvent m s (.Data d)) s).chunks =
        lastChunks m (p ++ ds.map toUint8Array)) := by
  intro ds
  induction ds with
  | nil => intro p s hs; simpa using hs
  | cons d ds ih =>
    intro p s hs
    have hstep : (handleEvent m s (.Data d)).chunks =
        lastChunks m (p ++ [toUint8Array d]) := by
      show sliceFromEnd m (s.chunks ++ [toUint8Array d]) = _
      rw [hs, sliceFromEnd_pos m hm]
      exact lastChunks_append_one m hm p (toUint8Array d)
    have := ih (p ++ [toUint8Array d]) (handleEvent m s (.Data d)) hstep
    simpa [List.append_assoc] using this

/-! Claim theorems. -/

/-- C1 counterexample: an End event is a transition to the terminal completed
status, yet it triggers zero forced refreshes on the job detail page (End
never invokes onComplete); likewise an Error event transitions to error with
zero forced refreshes (the page wires no onError). This refutes the claim
that every transition to completed or error via End, FinalResult, or Error
triggers exactly one forced refresh. -/
theorem claim1_end_error_refresh_counterexample :
    (handleTextEvent JobStreamTextState.opened .End).status = .completed ∧
    jobDetailForcedRefreshes JobStreamTextState.opened .End = 0 ∧
    (handleTextEvent JobStreamTextState.opened
      (.Error "agent failed")).status = .error ∧
    jobDetailForcedRefreshes JobStreamTextState.opened
      (.Error "agent failed") = 0 :=
  ⟨rfl, rfl, rfl, rfl⟩

/-- C1 amended: in every session state, a FinalResult event triggers exactly
one forced out-of-band refresh of the persisted job status (through the
onComplete callback the job detail page wires to a cache invalidation) while
transitioning to completed; End and Error transitions, and Data events,
trigger none, because End never invokes onComplete and the page supplies no
onError. -/
theorem claim1_forced_refresh_only_on_final_result :
    ∀ (s : JobStreamTextState) (st : String) (pn : Option Nat)
      (pu : Option String) (d : List Nat) (msg : String),
      jobDetailForcedRefreshes s (.FinalCollected st pn pu) = 1 ∧
      (handleTextEvent s (.FinalCollected st pn pu)).status = .completed ∧
      jobDetailForcedRefreshes s .End = 0 ∧
      (handleTextEvent s .End).status = .completed ∧
      jobDetailForcedRefreshes s (.Error msg) = 0 ∧
      (handleTextEvent s (.Error msg)).status = .error ∧
      jobDetailForcedRefreshes s (.Data d) = 0 := by
  intro s st pn pu d msg
  exact ⟨rfl, rfl, rfl, rfl, rfl, rfl, rfl⟩

/-- C2 counterexample: the string Unknown is not one of the ten enumerated
job statuses, and the classifier reports it as not active, contradicting the
claim that unrecognized values are classified active. -/
theorem claim2_unrecognized_status_counterexample :
    ¬ ("Unknown" ∈ JOB_STATUSES) ∧ isActiveJob "Unknown" = false := by
  decide

/-- C2 amended: the classifier is total over status strings and returns
active exactly on the five listed active statuses; every other string,
including all values outside the ten enumerated statuses, is classified not
active (polling stops), i.e. the implementation fails closed rather than
fail-open. -/
theorem claim2_classifier_fail_closed :
    (∀ s : String, s ∉ ACTIVE_STATUSES → isActiveJob s = false) ∧
    (∀ s : String, s ∈ ACTIVE_STATUSES → isActiveJob s = true) := by
  constructor
  · intro s h
    simpa [isActiveJob] using h
  · intro s h
    simpa [isActiveJob] using h

/-- C2 witness: the amended theorem applied to a terminal status and to an
active status. -/
theorem claim2_classifier_fail_closed_witness :
    isActiveJob "Merged" = false ∧ isActiveJob "Pending" = true :=
  ⟨claim2_classifier_fail_closed.1 "Merged" (by decide),
   claim2_classifier_fail_closed.2 "Pending" (by decide)⟩

/-- C3 counterexample: the two-byte character U+00E9 split across two Data
chunks. chunksToString, used by the chunk-buffer monitor useJobStream to
expose its text, decodes each chunk with a non-streaming decode, so the
split bytes each become U+FFFD and the exposed text differs from the decode
of the unsplit byte sequence. -/
theorem claim3_split_chunk_counterexample :
    chunksToString [[0xC3], [0xA9]] = [replacementCp, replacementCp] ∧
    decodeUtf8 ([0xC3] ++ [0xA9]) = [0xE9] ∧
    streamText (handleEvent DEFAULT_MAX_CHUNKS
      (handleEvent DEFAULT_MAX_CHUNKS JobStreamState.opened (.Data [0xC3]))
      (.Data [0xA9])) ≠ decodeUtf8 ([0xC3] ++ [0xA9]) := by
  decide

/-- C3 amended: the property holds for the streaming-text monitor
useJobStreamText (the one the job detail page uses), whose persistent
decoder retains incomplete trailing sequences across chunks: for every code
point sequence and every split of its utf-8 encoding into two Data chunks,
including splits inside a multi-byte character, the exposed text after both
chunks equals the decode of the unsplit byte sequence, namely the original
code points. The chunk-buffer monitor useJobStream does not have this
property (see the counterexample). -/
theorem claim3_text_monitor_boundary_safe (cps b1 b2 : List Nat)
    (hv : ∀ n ∈ cps, ScalarValue n) (hsplit : utf8Encode cps = b1 ++ b2) :
    textAfterTwoChunks b1 b2 = decodeUtf8 (b1 ++ b2) ∧
    textAfterTwoChunks b1 b2 = cps := by
  have hlt : ∀ b ∈ b1 ++ b2, b < 256 := by
    rw [← hsplit]; exact utf8Encode_lt cps hv
  have h1 : toUint8Array b1 = b1 :=
    toUint8Array_eq_self b1 (fun b hb => hlt b (by simp [hb]))
  have h2 : toUint8Array b2 = b2 :=
    toUint8Array_eq_self b2 (fun b hb => hlt b (by simp [hb]))
  have h12 : toUint8Array (b1 ++ b2) = b1 ++ b2 := toUint8Array_eq_self _ hlt
  have hrun : utf8Run Utf8State.start (b1 ++ b2) = (cps, Utf8State.start) := by
    rw [← hsplit]; exact utf8Run_encode cps hv
  have htext : textAfterTwoChunks b1 b2 =
      (utf8Run Utf8State.start (b1 ++ b2)).1 := by
    unfold textAfterTwoChunks handleTextEvent handleTextEventCounted
    simp [JobStreamTextState.opened, h1, h2, utf8Run_append]
  constructor
  · rw [htext]
    unfold decodeUtf8
    rw [h12, hrun]
    simp [utf8Flush, Utf8State.start]
  · rw [htext, hrun]

/-- C3 witness: the amended theorem applied to the split of U+00E9 into its
two utf-8 bytes. -/
theorem claim3_text_monitor_boundary_safe_witness :
    textAfterTwoChunks [0xC3] [0xA9] = decodeUtf8 ([0xC3] ++ [0xA9]) ∧
    textAfterTwoChunks [0xC3] [0xA9] = [0xE9] :=
  claim3_text_monitor_boundary_safe [0xE9] [0xC3] [0xA9] (by decide) rfl

/-- C4 counterexample: after an End event the session is completed, yet a
subsequently delivered Data event moves it back to streaming, so completed
is not terminal for delivered events. -/
theorem claim4_terminal_not_absorbing_counterexample :
    (handleEvent DEFAULT_MAX_CHUNKS JobStreamState.opened .End).status =
      .completed ∧
    (handleEvent DEFAULT_MAX_CHUNKS
      (handleEvent DEFAULT_MAX_CHUNKS JobStreamState.opened .End)
      (.Data [104])).status = .streaming :=
  ⟨rfl, rfl⟩

/-- C4 amended: the handler is state-independent: the lifecycle status after
any event is a function of the event alone (Data yields streaming, End and
FinalResult yield completed, Error yields error), so completed and error are
not absorbing under later delivered events; reset returns the session to
idle and a fresh open starts at connecting. -/
theorem claim4_transition_depends_only_on_event :
    ∀ (m : Nat) (s : JobStreamState) (e : StreamEvent),
      (handleEvent m s e).status = eventStatusTarget e ∧
      (reset s).status = .idle ∧
      JobStreamState.opened.status = .connecting := by
  intro m s e
  refine ⟨?_, rfl, rfl⟩
  cases e <;> rfl

/-- C5 counterexample: with chunk limit 0 and one Data event the claim
demands an empty retained sequence (the last min(1, 0) = 0 chunks), but the
code calls slice(-0), which JavaScript reads as slice(0), so everything is
retained. -/
theorem claim5_zero_limit_counterexample :
    chunksAfterData 0 [[42]] = [[42]] ∧
    lastChunks (min 1 0) [[42]] = [] ∧
    chunksAfterData 0 [[42]] ≠ lastChunks (min 1 0) [[42]] := by
  decide

/-- C5 amended: for every chunk limit of at least 1 (which includes the
default 1000) and every sequence of N Data events, the retained chunk
sequence is exactly the last min(N, limit) appended chunks (each chunk as
coerced by the Uint8Array constructor) in arrival order; with limit 0 the
buffer instead retains everything. -/
theorem claim5_buffer_last_min_chunks (m : Nat) (hm : 1 ≤ m)
    (ds : List (List Nat)) :
    chunksAfterData m ds = lastChunks m (ds.map toUint8Array) ∧
    (chunksAfterData m ds).length = min ds.length m := by
  have hmain : chunksAfterData m ds = lastChunks m (ds.map toUint8Array) := by
    unfold chunksAfterData
    have hbase : JobStreamState.opened.chunks = lastChunks m [] := by
      simp [lastChunks, JobStreamState.opened]
    have := chunksFold_data m hm ds [] JobStreamState.opened hbase
    simpa using this
  refine ⟨hmain, ?_⟩
  rw [hmain]
  unfold lastChunks
  simp only [List.length_drop, List.length_map]
  omega

/-- C5 witness: the amended theorem applied to three appends with limit 2. -/
theorem claim5_buffer_last_min_chunks_witness :
    chunksAfterData 2 [[1], [2], [3]] =
      lastChunks 2 ([[1], [2], [3]].map toUint8Array) ∧
    (chunksAfterData 2 [[1], [2], [3]]).length = min 3 2 :=
  claim5_buffer_last_min_chunks 2 (by decide) [[1], [2], [3]]

/-- C6: in both interleavings of the listen-promise resolution and the
effect cleanup, no subscription is live after both have run; moreover, if
the component is already torn down when the promise resolves, the resolution
step itself leaves the subscription closed (the mounted guard makes the
handler call the just-delivered unlisten function at once). -/
theorem claim6_no_leaked_subscription :
    (subRun SubState.initial [SubAction.resolve, SubAction.cleanup]).live =
      false ∧
    (subRun SubState.initial [SubAction.cleanup, SubAction.resolve]).live =
      false ∧
    (∀ s : SubState, s.mounted = false → (subStep s .resolve).live = false) := by
  refine ⟨rfl, rfl, ?_⟩
  intro s h
  simp [subStep, h]

/-- C6 witness: the guard clause applied to the torn-down state. -/
theorem claim6_no_leaked_subscription_witness :
    (subStep { mounted := false, stored := false, live := false }
      SubAction.resolve).live = false :=
  claim6_no_leaked_subscription.2.2
    { mounted := false, stored := false, live := false } rfl

/-- C7: from every session state (in particular one that has seen zero Data
events), a FinalResult event yields status completed and a non-null result
carrying exactly the status, pr_number and pr_url of the event. -/
theorem claim7_final_result_completes :
    ∀ (m : Nat) (s : JobStreamState) (st : String) (pn : Option Nat)
      (pu : Option String),
      (handleEvent m s (.FinalCollected st pn pu)).status = .completed ∧
      (handleEvent m s (.FinalCollected st pn pu)).result =
        some { status := st, pr_number := pn, pr_url := pu } := by
  intro m s st pn pu
  exact ⟨rfl, rfl⟩

/-- C8 counterexample: an Error event whose message is the empty string
still transitions the session to error, but the stored error message is
empty, refuting the unconditional claim that the error field is set to a
non-empty message. -/
theorem claim8_empty_message_counterexample :
    (handleEvent DEFAULT_MAX_CHUNKS JobStreamState.opened
      (.Error "")).status = .error ∧
    (handleEvent DEFAULT_MAX_CHUNKS JobStreamState.opened
      (.Error "")).error = some "" ∧
    ¬ ∃ msg, (handleEvent DEFAULT_MAX_CHUNKS JobStreamState.opened
        (.Error "")).error = some msg ∧ msg ≠ "" := by
  refine ⟨rfl, rfl, ?_⟩
  rintro ⟨msg, hm, hne⟩
  have hsome : some "" = some msg := hm
  exact hne (Option.some.inj hsome).symm

/-- C8 amended: for every lifecycle state and every Error event carrying a
non-empty message, the session transitions to error and the error field is
set to exactly that (non-empty) message; the handler is a total function, so
the failure is exposed only through session state and never thrown. -/
theorem claim8_error_event_sets_error_state (m : Nat) (s : JobStreamState)
    (msg : String) (h : msg ≠ "") :
    (handleEvent m s (.Error msg)).status = .error ∧
    (handleEvent m s (.Error msg)).error = some msg ∧
    ∃ mm, (handleEvent m s (.Error msg)).error = some mm ∧ mm ≠ "" :=
  ⟨rfl, rfl, ⟨msg, rfl, h⟩⟩

/-- C8 witness: the amended theorem applied to a concrete message. -/
theorem claim8_error_event_sets_error_state_witness :
    (handleEvent DEFAULT_MAX_CHUNKS JobStreamState.opened
      (.Error "agent crashed")).status = .error ∧
    (handleEvent DEFAULT_MAX_CHUNKS JobStreamState.opened
      (.Error "agent crashed")).error = some "agent crashed" ∧
    ∃ mm, (handleEvent DEFAULT_MAX_CHUNKS JobStreamState.opened
      (.Error "agent crashed")).error = some mm ∧ mm ≠ "" :=
  claim8_error_event_sets_error_state DEFAULT_MAX_CHUNKS
    JobStreamState.opened "agent crashed" (by decide)

/-- C9: from every prior session state, reset yields the initial session:
status idle, empty chunk buffer, empty decoded text, null result and null
error. -/
theorem claim9_reset_restores_initial :
    ∀ s : JobStreamState,
      reset s = JobStreamState.initial ∧
      (reset s).status = .idle ∧
      (reset s).chunks = [] ∧
      streamText (reset s) = [] ∧
      (reset s).result = none ∧
      (reset s).error = none := by
  intro s
  exact ⟨rfl, rfl, rfl, rfl, rfl, rfl⟩

/-- C10: reset clears only the session cells and leaves the subscription
flag untouched; if the subscription is still live, a Data event delivered
right after reset moves the session from idle straight to streaming and the
buffer starts refilling with that chunk, without any new open call. -/
theorem claim10_reset_keeps_subscription (m : Nat) (s : MonitorState)
    (d : List Nat) :
    (resetMonitor s).subscriptionLive = s.subscriptionLive ∧
    (resetMonitor s).session.status = .idle ∧
    (s.subscriptionLive = true →
      (deliver m (resetMonitor s) (.Data d)).session.status = .streaming ∧
      (deliver m (resetMonitor s) (.Data d)).session.chunks =
        [toUint8Array d]) := by
  refine ⟨rfl, rfl, ?_⟩
  intro hlive
  have hcond : (resetMonitor s).subscriptionLive = true := hlive
  unfold deliver
  rw [if_pos hcond]
  constructor
  · rfl
  · show sliceFromEnd m ([] ++ [toUint8Array d]) = [toUint8Array d]
    rw [List.nil_append]
    unfold sliceFromEnd
    split
    · rfl
    · have h10 : ([toUint8Array d] : List (List Nat)).length - m = 0 := by
        simp only [List.length_singleton]
        omega
      rw [h10]
      rfl

/-- C10 witness: the theorem applied to a live monitor in a non-idle state. -/
theorem claim10_reset_keeps_subscription_witness :
    (deliver DEFAULT_MAX_CHUNKS
      (resetMonitor { session := JobStreamState.opened, subscriptionLive := true })
      (.Data [72])).session.status = .streaming ∧
    (deliver DEFAULT_MAX_CHUNKS
      (resetMonitor { session := JobStreamState.opened, subscriptionLive := true })
      (.Data [72])).session.chunks = [toUint8Array [72]] :=
  (claim10_reset_keeps_subscription DEFAULT_MAX_CHUNKS
    { session := JobStreamState.opened, subscriptionLive := true } [72]).2.2 rfl

end JobStreamSpec
